import Mathlib

set_option maxRecDepth 100000

/-!
Shallow embedding of the journaling application (`app.py`): JSON values,
the per-user entry/summary document store, the persistence operations
(`create_entry`, `save_summary`, `fetch_entries`, `export_shared`,
`theme_counts`), the summarization adapter (`summarize_with_gemini`)
with the generative model and the JSON decoder abstracted as function
parameters, and the UI handlers for the prompt-rotation state machine
and the save-entry button.
-/

/-- JSON values, as produced by decoding a model response and as stored in
summary documents. Objects keep their key/value pairs in insertion order. -/
inductive JVal where
  | null
  | bool (b : Bool)
  | num (n : Int)
  | str (s : String)
  | arr (xs : List JVal)
  | obj (kvs : List (String × JVal))

/-- Dictionary lookup: the value at the first occurrence of key `k`. -/
def lookupKey (kvs : List (String × JVal)) (k : String) : Option JVal :=
  match kvs with
  | [] => none
  | (k0, v0) :: rest => if k0 = k then some v0 else lookupKey rest k

/-- Dictionary assignment `d[k] = v`: replaces the value at the first
occurrence of `k`, appending the pair when `k` is absent. -/
def setKey (kvs : List (String × JVal)) (k : String) (v : JVal) : List (String × JVal) :=
  match kvs with
  | [] => [(k, v)]
  | (k0, v0) :: rest => if k0 = k then (k0, v) :: rest else (k0, v0) :: setKey rest k v

/-- Python truthiness on JSON values: `None`, `False`, `0`, `""`, `[]`, `{}`
are falsy, everything else truthy. -/
def jFalsy : JVal → Bool
  | .null => true
  | .bool b => !b
  | .num n => n == 0
  | .str s => s == ""
  | .arr xs => xs.isEmpty
  | .obj kvs => kvs.isEmpty

/-- Python exceptions that the embedded code can raise. -/
inductive PyErr where
  | typeError
  | attributeError
deriving DecidableEq

/-- One character step of Python `str.title()`: an alphabetic character is
uppercased when the previous character was not alphabetic and lowercased
otherwise; other characters pass through and reset the word boundary. -/
def titleChars : Bool → List Char → List Char
  | _, [] => []
  | prevAlpha, c :: cs =>
    if c.isAlpha then
      (if prevAlpha then c.toLower else c.toUpper) :: titleChars true cs
    else
      c :: titleChars false cs

/-- Python `str.title()`. -/
def pyTitle (s : String) : String :=
  String.mk (titleChars false s.data)

/-- Python `str.strip()`: leading and trailing whitespace removed. -/
def pyStrip (s : String) : String :=
  String.mk (((s.data.dropWhile Char.isWhitespace).reverse.dropWhile
    Char.isWhitespace).reverse)

/-- `to_title` from `app.py`: `(name or "").strip().title()` on a string. -/
def to_title (name : String) : String :=
  pyTitle (pyStrip name)

/-- `to_title` applied to an arbitrary decoded JSON value: a falsy value is
replaced by `""`; a truthy non-string has no `.strip()` method and raises
`AttributeError`. -/
def to_title_py : JVal → Except PyErr String
  | .str s => .ok (to_title s)
  | v => if jFalsy v then .ok "" else .error .attributeError

-- ---- Constants from app.py ----

/-- The fixed prompt set `PROMPTS`. -/
def PROMPTS : List String :=
  ["How’s your day going?",
   "What’s been on your mind today?",
   "What gave you energy this week?",
   "What’s one small win you had recently?",
   "What’s been draining your energy lately?"]

/-- The fallback prompt `FALLBACK` (its apostrophe is U+2019, as in the source). -/
def FALLBACK : String := "Just write whatever’s on your mind."

/-- `SYSTEM_PROMPT`. -/
def SYSTEM_PROMPT : String :=
  "You are a careful mental-health journaling assistant. " ++
  "Summarize neutrally and supportively without diagnosing." ++
  " Return STRICT JSON with keys: summary (2-3 sentences), " ++
  "themes (array of objects with keys name, description), " ++
  "suggested_prompts (array with 1 short reflective question)."

/-- `GEN_TEMPLATE.format(system=..., text=...)`: the template with both
placeholders substituted (the `{{`/`}}` of the source render as literal
braces). -/
def GEN_TEMPLATE (system text : String) : String :=
  "System:\n" ++ system ++ "\n\nUser:\nJOURNAL:\n\"\"\"" ++ text ++
  "\"\"\" \n\nReturn strict JSON:\n\x7b\n  \"summary\": \"<2-3 sentence recap>\",\n" ++
  "  \"themes\": [\n    \x7b\"name\":\"ThemeName1\",\"description\":\"One sentence.\"\x7d,\n" ++
  "    \x7b\"name\":\"ThemeName2\",\"description\":\"One sentence.\"\x7d\n  ],\n" ++
  "  \"suggested_prompts\": [\"One gentle follow-up question\"]\n\x7d"

/-- The instruction appended to the prompt for the single retry. -/
def RETRY_NOTE : String :=
  "\n\nIMPORTANT: Output MUST be valid JSON only, no commentary."

/-- The configured Vertex model identifier (`st.secrets` default). -/
def VERTEX_MODEL : String := "gemini-1.5-flash"

-- ---- UI state machine ----

/-- The per-session UI state: `st.session_state.refresh_count` and
`st.session_state.current_prompt`. -/
structure UIState where
  refresh_count : Nat
  current_prompt : String
deriving DecidableEq

/-- The "New prompt" button handler. `rnd` supplies the random choice:
`random.choice(choices)` is modelled as indexing `choices` at
`rnd % choices.length`. -/
def newPromptClick (ui : UIState) (rnd : Nat) : UIState :=
  let c := ui.refresh_count + 1
  if c ≥ 2 then
    { refresh_count := c, current_prompt := FALLBACK }
  else
    let choices := PROMPTS.filter (· != ui.current_prompt)
    { refresh_count := c,
      current_prompt := choices.getD (rnd % choices.length) FALLBACK }

-- ---- Document store ----

/-- A document of the `summaries` subcollection, as written by
`save_summary`: fields `summary_text`, `themes`, `suggested_prompts`,
`model`, `created_at`. The first three hold whatever JSON values the
summary payload supplied. Timestamps are the store's logical clock. -/
structure SummaryDoc where
  summary_text : JVal
  themes : JVal
  suggested_prompts : JVal
  model : String
  created_at : Nat

/-- A document of `users/{user_id}/entries`, together with its store-assigned
id and its `summaries` subcollection. -/
structure Entry where
  id : String
  text : String
  prompt_used : Option String
  created_at : Nat
  is_shared : Bool
  summaries : List SummaryDoc

/-- The Firestore state restricted to what the application touches: the
entries of each user, a logical clock supplying strictly increasing
server timestamps, and a counter supplying fresh document ids. -/
structure Store where
  users : List (String × List Entry)
  clock : Nat
  nextId : Nat

/-- The entry collection of one user (empty when the user has no document). -/
def lookupEntries (users : List (String × List Entry)) (u : String) : List Entry :=
  match users with
  | [] => []
  | (v, l) :: rest => if v = u then l else lookupEntries rest u

/-- Replace (or create) the entry collection of one user. -/
def setEntries (users : List (String × List Entry)) (u : String) (es : List Entry) :
    List (String × List Entry) :=
  match users with
  | [] => [(u, es)]
  | (v, l) :: rest => if v = u then (v, es) :: rest else (v, l) :: setEntries rest u es

/-- Sort in descending key order (`order_by(..., DESCENDING)`). -/
def sortDescBy (key : α → Nat) (l : List α) : List α :=
  l.insertionSort (fun a b => key b ≤ key a)

/-- Sort in ascending key order (`order_by("created_at")`). -/
def sortAscBy (key : α → Nat) (l : List α) : List α :=
  l.insertionSort (fun a b => key a ≤ key b)

/-- The latest summary of an entry: `summaries.order_by("created_at",
DESCENDING).limit(1)`, `None` when there is no summary. -/
def latestSummary (l : List SummaryDoc) : Option SummaryDoc :=
  (sortDescBy SummaryDoc.created_at l).head?

-- ---- Persistence operations ----

/-- `create_entry`: writes a new entry document with `is_shared = False`
and a server timestamp, returning the updated store and the new id. -/
def create_entry (s : Store) (user_id : String) (text : String)
    (prompt_used : Option String) : Store × String :=
  let eid := toString s.nextId
  let e : Entry :=
    { id := eid, text := text, prompt_used := prompt_used,
      created_at := s.clock, is_shared := false, summaries := [] }
  ({ users := setEntries s.users user_id (lookupEntries s.users user_id ++ [e]),
     clock := s.clock + 1, nextId := s.nextId + 1 }, eid)

/-- The summary document `save_summary` builds from a payload dictionary:
`summary.get("summary", "")`, `summary.get("themes", [])`,
`summary.get("suggested_prompts", [])`, the configured model and a server
timestamp. Missing keys fall back to the defaults; no key access can fail. -/
def summaryDocOf (payload : List (String × JVal)) (t : Nat) : SummaryDoc :=
  { summary_text := (lookupKey payload "summary").getD (.str ""),
    themes := (lookupKey payload "themes").getD (.arr []),
    suggested_prompts := (lookupKey payload "suggested_prompts").getD (.arr []),
    model := VERTEX_MODEL,
    created_at := t }

/-- Append `summaryDocOf payload` to the summaries of one entry. -/
def addSummaryTo (es : List Entry) (entry_id : String) (payload : List (String × JVal))
    (t : Nat) : List Entry :=
  match es with
  | [] => []
  | e :: rest =>
    if e.id = entry_id then
      { e with summaries := e.summaries ++ [summaryDocOf payload t] } :: rest
    else
      e :: addSummaryTo rest entry_id payload t

/-- `save_summary`: adds a summary document to an entry's subcollection. -/
def save_summary (s : Store) (user_id entry_id : String)
    (payload : List (String × JVal)) : Store :=
  { users := setEntries s.users user_id
      (addSummaryTo (lookupEntries s.users user_id) entry_id payload s.clock),
    clock := s.clock + 1, nextId := s.nextId }

-- ---- fetch_entries ----

/-- Python iteration over a JSON value (`for t in latest["themes"]`): lists
yield their elements, dictionaries their keys, strings their characters;
anything else raises `TypeError`. -/
def iterJ : JVal → Except PyErr (List JVal)
  | .arr xs => .ok xs
  | .obj kvs => .ok (kvs.map (fun kv => .str kv.1))
  | .str s => .ok (s.data.map (fun c => .str (String.singleton c)))
  | _ => .error .typeError

/-- The set comprehension of `fetch_entries`:
`{to_title(t.get("name", "")) for t in themes if isinstance(t, dict)}`,
as the list of computed names. -/
def themeNames : List JVal → Except PyErr (List String)
  | [] => .ok []
  | .obj kvs :: rest =>
    match to_title_py ((lookupKey kvs "name").getD (.str "")) with
    | .error e => .error e
    | .ok n =>
      match themeNames rest with
      | .error e => .error e
      | .ok ns => .ok (n :: ns)
  | _ :: rest => themeNames rest

/-- An element of the list `fetch_entries` returns: the entry document with
its id and its latest summary attached. -/
structure EntryOut where
  id : String
  text : String
  prompt_used : Option String
  created_at : Nat
  is_shared : Bool
  latest_summary : Option SummaryDoc

/-- The record `fetch_entries` builds for one entry. -/
def entryOutOf (e : Entry) : EntryOut :=
  { id := e.id, text := e.text, prompt_used := e.prompt_used,
    created_at := e.created_at, is_shared := e.is_shared,
    latest_summary := latestSummary e.summaries }

/-- Whether the `fetch_entries` loop keeps an entry: an entry is skipped
only when the filter string is truthy, the entry has a latest summary,
and the computed theme-name set does not contain the title-cased filter. -/
def keepEntry (tf : Option String) (e : Entry) : Except PyErr Bool :=
  match tf with
  | none => .ok true
  | some f =>
    if f = "" then .ok true
    else
      match latestSummary e.summaries with
      | none => .ok true
      | some sd =>
        match iterJ sd.themes with
        | .error er => .error er
        | .ok elems =>
          match themeNames elems with
          | .error er => .error er
          | .ok names => .ok (names.contains (to_title f))

/-- The `fetch_entries` loop over the (already ordered) entry documents. -/
def fetchLoop (tf : Option String) : List Entry → Except PyErr (List EntryOut)
  | [] => .ok []
  | e :: rest =>
    match keepEntry tf e with
    | .error er => .error er
    | .ok true =>
      match fetchLoop tf rest with
      | .error er => .error er
      | .ok out => .ok (entryOutOf e :: out)
    | .ok false => fetchLoop tf rest

/-- `fetch_entries`: the user's entries ordered by creation time descending,
each with its latest summary, optionally filtered by a theme name. -/
def fetch_entries (s : Store) (user_id : String) (theme_filter : Option String) :
    Except PyErr (List EntryOut) :=
  fetchLoop theme_filter (sortDescBy Entry.created_at (lookupEntries s.users user_id))

-- ---- export_shared ----

/-- ISO-8601 rendering of a server timestamp, abstracted to an injective
rendering of the store's logical clock. -/
def isoformat (t : Nat) : String := toString t

/-- One element of the export contract's `shared` array. -/
structure ExportRecord where
  entry_id : String
  text : String
  prompt_used : Option String
  created_at : Option String
  summary : Option JVal
  themes : Option JVal

/-- The export result: `{"user_id": ..., "shared": [...]}`. -/
structure ExportResult where
  user_id : String
  shared : List ExportRecord

/-- The record `export_shared` builds for one shared entry. A stored
`created_at` timestamp is a datetime, hence truthy, so the ISO string is
always present; the `summary`/`themes` fields are `None` exactly when the
entry has no summary. -/
def exportRecordOf (e : Entry) : ExportRecord :=
  let latest := latestSummary e.summaries
  { entry_id := e.id, text := e.text, prompt_used := e.prompt_used,
    created_at := some (isoformat e.created_at),
    summary := latest.map SummaryDoc.summary_text,
    themes := latest.map SummaryDoc.themes }

/-- The `export_shared` loop over the filtered, ascending-ordered documents. -/
def exportLoop : List Entry → List ExportRecord
  | [] => []
  | e :: rest => exportRecordOf e :: exportLoop rest

/-- `export_shared`: entries with `is_shared == True`, ordered by creation
time ascending, projected into export records. -/
def export_shared (s : Store) (user_id : String) : ExportResult :=
  { user_id := user_id,
    shared := exportLoop (sortAscBy Entry.created_at
      ((lookupEntries s.users user_id).filter Entry.is_shared)) }

-- ---- theme_counts ----

/-- `counts[name] = counts.get(name, 0) + 1` on an insertion-ordered
dictionary. -/
def bumpCount (counts : List (String × Nat)) (name : String) : List (String × Nat) :=
  match counts with
  | [] => [(name, 1)]
  | (k, v) :: rest => if k = name then (k, v + 1) :: rest else (k, v) :: bumpCount rest name

/-- Dictionary read `counts.get(m, 0)`. -/
def getCount (counts : List (String × Nat)) (m : String) : Nat :=
  match counts with
  | [] => 0
  | (k, v) :: rest => if k = m then v else getCount rest m

/-- The inner loop of `theme_counts` over the elements of a latest summary's
`themes` value: each dictionary element contributes its title-cased name,
empty names are skipped. -/
def countThemes (counts : List (String × Nat)) :
    List JVal → Except PyErr (List (String × Nat))
  | [] => .ok counts
  | .obj kvs :: rest =>
    match to_title_py ((lookupKey kvs "name").getD (.str "")) with
    | .error e => .error e
    | .ok name => countThemes (if name = "" then counts else bumpCount counts name) rest
  | _ :: rest => countThemes counts rest

/-- The outer loop of `theme_counts` over the entry documents. -/
def countEntries (counts : List (String × Nat)) :
    List Entry → Except PyErr (List (String × Nat))
  | [] => .ok counts
  | e :: rest =>
    match latestSummary e.summaries with
    | none => countEntries counts rest
    | some sd =>
      match iterJ sd.themes with
      | .error er => .error er
      | .ok elems =>
        match countThemes counts elems with
        | .error er => .error er
        | .ok c => countEntries c rest

/-- The entries `theme_counts` aggregates over: the most recent `last_n`. -/
def takenEntries (s : Store) (user_id : String) (last_n : Nat) : List Entry :=
  (sortDescBy Entry.created_at (lookupEntries s.users user_id)).take last_n

/-- `theme_counts`: theme-name frequencies over the most recent `last_n`
entries, one bump per dictionary element of each latest summary's themes. -/
def theme_counts (s : Store) (user_id : String) (last_n : Nat := 10) :
    Except PyErr (List (String × Nat)) :=
  countEntries [] (takenEntries s user_id last_n)

-- ---- Summarization adapter ----

/-- Substring test, for Python's `in` on strings. -/
def strContains (s pat : String) : Bool :=
  (s.splitOn pat).length > 1

/-- Python `"themes" in data` on a decoded JSON value: key test on a
dictionary, element test on a list, substring test on a string,
`TypeError` otherwise. -/
def jHasThemes : JVal → Except PyErr Bool
  | .obj kvs => .ok (lookupKey kvs "themes").isSome
  | .arr xs => .ok (xs.any (fun v => match v with | .str s => s == "themes" | _ => false))
  | .str s => .ok (strContains s "themes")
  | _ => .error .typeError

/-- The per-theme normalization of `summarize_with_gemini`: a dictionary
element with a `name` key gets `t["name"] = to_title(t["name"])`; other
elements are untouched. -/
def normTheme : JVal → Except PyErr JVal
  | .obj kvs =>
    match lookupKey kvs "name" with
    | none => .ok (.obj kvs)
    | some v =>
      match to_title_py v with
      | .error e => .error e
      | .ok s => .ok (.obj (setKey kvs "name" (.str s)))
  | v => .ok v

/-- Error-propagating map for the normalization loop. -/
def mapNormTheme : List JVal → Except PyErr (List JVal)
  | [] => .ok []
  | t :: rest =>
    match normTheme t with
    | .error e => .error e
    | .ok t2 =>
      match mapNormTheme rest with
      | .error e => .error e
      | .ok rest2 => .ok (t2 :: rest2)

/-- The theme-name normalization performed on the decoded response before
`summarize_with_gemini` returns: when `"themes" in data` holds and
`data["themes"]` is a list, every dictionary element with a `name` key has
that name title-cased; indexing a non-dictionary with `"themes"` raises
`TypeError`. -/
def normalizeData (d : JVal) : Except PyErr JVal :=
  match jHasThemes d with
  | .error e => .error e
  | .ok false => .ok d
  | .ok true =>
    match d with
    | .obj kvs =>
      match lookupKey kvs "themes" with
      | some (.arr ts) =>
        match mapNormTheme ts with
        | .error e => .error e
        | .ok ts2 => .ok (.obj (setKey kvs "themes" (.arr ts2)))
      | _ => .ok (.obj kvs)
    | _ => .error .typeError

/-- How a summarize action can fail: the retry's response also failed to
decode (the spec's ModelOutputInvalid condition), or the normalization
step raised a Python exception. -/
inductive SummFail where
  | modelOutputInvalid
  | pyErr (e : PyErr)

/-- `summarize_with_gemini`, with the generative model abstracted as
`gen : prompt → response text` and the JSON decoder (`json.loads`, an
external library) abstracted as `parse : text → Option JVal`, `none`
meaning the decode raised. Returns the result together with the list of
prompts sent to the model, in order. -/
def summarize_with_gemini (parse : String → Option JVal) (gen : String → String)
    (text : String) : Except SummFail JVal × List String :=
  let prompt := GEN_TEMPLATE SYSTEM_PROMPT text
  match parse (gen prompt) with
  | some data =>
    ((normalizeData data).mapError SummFail.pyErr, [prompt])
  | none =>
    let prompt2 := prompt ++ RETRY_NOTE
    match parse (gen prompt2) with
    | some data =>
      ((normalizeData data).mapError SummFail.pyErr, [prompt, prompt2])
    | none => (.error .modelOutputInvalid, [prompt, prompt2])

-- ---- Save-entry button handler ----

/-- What the save-entry handler reports. -/
inductive SaveMsg where
  | success (entry_id : String)
  | warning
deriving DecidableEq

/-- The "Save entry" button handler: a blank (stripped-empty) text is
rejected with a warning and nothing else happens; otherwise the stripped
text is saved with the current prompt, and the prompt state is reset. -/
def saveEntryClick (s : Store) (ui : UIState) (user_id text : String) :
    Store × UIState × SaveMsg :=
  if pyStrip text ≠ "" then
    let r := create_entry s user_id (pyStrip text) (some ui.current_prompt)
    (r.1, { refresh_count := 0, current_prompt := PROMPTS[0] }, .success r.2)
  else
    (s, ui, .warning)

-- ---- Derived observations used by the statements ----

/-- The `name` values of the theme objects of a decoded summary: one value
per dictionary element of `data["themes"]` that has a `name` key, when
`data` is a dictionary whose `themes` value is a list; empty otherwise. -/
def themeNameValues (d : JVal) : List JVal :=
  match d with
  | .obj kvs =>
    match lookupKey kvs "themes" with
    | some (.arr ts) =>
      ts.filterMap (fun t => match t with | .obj k2 => lookupKey k2 "name" | _ => none)
    | _ => []
  | _ => []

/-- The title-cased names of the theme objects of a `themes` list whose
elements are dictionaries with string names. -/
def normNames (ts : List JVal) : List String :=
  ts.filterMap (fun t => match t with
    | .obj kvs =>
      match lookupKey kvs "name" with
      | some (.str s) => some (to_title s)
      | _ => none
    | _ => none)

/-- No string occurs twice. -/
def nodupB : List String → Bool
  | [] => true
  | x :: xs => !(xs.contains x) && nodupB xs

/-- A theme object as the data model describes it: a dictionary whose
`name` value is a string. -/
def themeObjWF : JVal → Bool
  | .obj kvs =>
    match lookupKey kvs "name" with
    | some (.str _) => true
    | _ => false
  | _ => false

/-- The data-model invariant on one entry: either no summary, or the latest
summary's `themes` value is a list of theme objects whose title-cased
names are pairwise distinct. -/
def entryThemesWF (e : Entry) : Bool :=
  match latestSummary e.summaries with
  | none => true
  | some sd =>
    match sd.themes with
    | .arr ts => ts.all themeObjWF && nodupB (normNames ts)
    | _ => false

/-- Whether an entry's latest summary mentions the (already title-cased)
theme name `m`. -/
def entryHasTheme (e : Entry) (m : String) : Bool :=
  match latestSummary e.summaries with
  | none => false
  | some sd =>
    match sd.themes with
    | .arr ts => (normNames ts).contains m
    | _ => false

-- ---- Concrete instances used by counterexamples and witnesses ----

/-- A summary document whose themes are the given names. -/
def sdMk (names : List String) (t : Nat) : SummaryDoc :=
  { summary_text := .str "recap", model := VERTEX_MODEL, created_at := t,
    themes := .arr (names.map (fun n => JVal.obj [("name", .str n)])),
    suggested_prompts := .arr [] }

/-- An entry with the given id, creation time, shared flag and summaries. -/
def entMk (i : String) (t : Nat) (sh : Bool) (sds : List SummaryDoc) : Entry :=
  { id := i, text := "text " ++ i, prompt_used := none, created_at := t,
    is_shared := sh, summaries := sds }

/-- Three entries whose latest summaries carry the theme-name lists
`["Stress"]`, `["Stress", "Sleep"]`, `["Stress"]`. -/
def exC2Store : Store :=
  { users := [("u", [entMk "1" 0 false [sdMk ["Stress"] 10],
                     entMk "2" 1 true [sdMk ["Stress", "Sleep"] 11],
                     entMk "3" 2 false [sdMk ["Stress"] 12]])],
    clock := 20, nextId := 4 }

/-- An entry with no summary at all. -/
def noSummaryEntry : Entry := entMk "1" 0 false []

/-- A store holding only an entry with no summary. -/
def c1Store : Store :=
  { users := [("u", [noSummaryEntry])], clock := 5, nextId := 2 }

/-- A decoded model response whose theme name is not in title case. -/
def exData : JVal :=
  .obj [("summary", .str "ok"), ("themes", .arr [.obj [("name", .str "stress level")]])]

/-- `exData` after theme-name normalization. -/
def exDataNormed : JVal :=
  .obj [("summary", .str "ok"), ("themes", .arr [.obj [("name", .str "Stress Level")]])]

/-- A decoder that only accepts the retry's response text. -/
def exParse : String → Option JVal :=
  fun s => if s = "second" then some exData else none

/-- A model that answers `"first"` to the original prompt and `"second"`
to any other prompt. -/
def exGen : String → String :=
  fun p => if p = GEN_TEMPLATE SYSTEM_PROMPT "t" then "first" else "second"

/-- The fallback string as the spec spells it, with an ASCII apostrophe
(code point 39) where the source's `FALLBACK` has U+2019. -/
def specFallbackAscii : String :=
  "Just write whatever" ++ String.singleton (Char.ofNat 39) ++ "s on your mind."

/-- The result of fetching `exC2Store` under the filter `"Stress"`. -/
def c1WitnessOut : List EntryOut :=
  [entryOutOf (entMk "3" 2 false [sdMk ["Stress"] 12]),
   entryOutOf (entMk "2" 1 true [sdMk ["Stress", "Sleep"] 11]),
   entryOutOf (entMk "1" 0 false [sdMk ["Stress"] 10])]

-- ---- Basic lemmas ----

theorem mem_sortDescBy (key : α → Nat) (l : List α) (a : α) :
    a ∈ sortDescBy key l ↔ a ∈ l :=
  (List.perm_insertionSort _ l).mem_iff

theorem mem_sortAscBy (key : α → Nat) (l : List α) (a : α) :
    a ∈ sortAscBy key l ↔ a ∈ l :=
  (List.perm_insertionSort _ l).mem_iff

theorem chain_sortAscBy (key : α → Nat) (l : List α) :
    List.Chain' (fun a b => key a ≤ key b) (sortAscBy key l) := by
  letI : IsTotal α (fun a b => key a ≤ key b) := ⟨fun a b => Nat.le_total _ _⟩
  letI : IsTrans α (fun a b => key a ≤ key b) := ⟨fun _ _ _ h1 h2 => Nat.le_trans h1 h2⟩
  exact (List.sorted_insertionSort _ l).chain'

theorem lookupEntries_setEntries_self (users : List (String × List Entry))
    (u : String) (es : List Entry) :
    lookupEntries (setEntries users u es) u = es := by
  induction users with
  | nil => simp [setEntries, lookupEntries]
  | cons p rest ih =>
    by_cases h : p.1 = u
    · simp [setEntries, lookupEntries, h]
    · simp [setEntries, lookupEntries, h, ih]

theorem lookupKey_setKey_self (kvs : List (String × JVal)) (k : String) (v : JVal) :
    lookupKey (setKey kvs k v) k = some v := by
  induction kvs with
  | nil => simp [setKey, lookupKey]
  | cons p rest ih =>
    by_cases h : p.1 = k
    · simp [setKey, lookupKey, h]
    · simp [setKey, lookupKey, h, ih]

theorem getD_mod_mem (l : List String) (n : Nat) (d : String) (h : l ≠ []) :
    l.getD (n % l.length) d ∈ l := by
  have hl : 0 < l.length := List.length_pos.mpr h
  have hn : n % l.length < l.length := Nat.mod_lt _ hl
  rw [List.getD_eq_getElem l d hn]
  exact l.getElem_mem hn

-- ---- C5: prompt rotation ----

/-- C5 (counterexample): starting from the first fixed prompt with counter 0,
two "new prompt" requests do NOT leave the current prompt equal to the
string the claim quotes — the spec spells the fallback with an ASCII
apostrophe while the source's `FALLBACK` uses U+2019. -/
theorem c5_counterexample :
    (newPromptClick (newPromptClick ⟨0, PROMPTS[0]⟩ 0) 0).current_prompt ≠
      specFallbackAscii := by
  decide

/-- C5 (amended): starting from the first fixed prompt with counter 0, two
consecutive "new prompt" requests yield counter 2 and current prompt equal
to the source's fallback string (which spells "whatever’s" with the
typographic apostrophe U+2019), regardless of the random selections; and a
request made with counter 0 — so the incremented counter stays below the
threshold 2 — selects the new prompt from the fixed prompt set excluding
the current value. -/
theorem c5_amended :
    (∀ r1 r2 : Nat,
        newPromptClick (newPromptClick ⟨0, PROMPTS[0]⟩ r1) r2 =
          ⟨2, FALLBACK⟩) ∧
    (∀ (ui : UIState) (rnd : Nat), ui.refresh_count = 0 →
        (newPromptClick ui rnd).current_prompt ∈ PROMPTS ∧
        (newPromptClick ui rnd).current_prompt ≠ ui.current_prompt) := by
  constructor
  · intro r1 r2
    rfl
  · intro ui rnd h0
    have hne : PROMPTS.filter (· != ui.current_prompt) ≠ [] := by
      intro hemp
      by_cases h1 : "How’s your day going?" = ui.current_prompt
      · have h2 : "What’s been on your mind today?" ∈
            PROMPTS.filter (· != ui.current_prompt) := by
          rw [List.mem_filter]
          refine ⟨by simp [PROMPTS], ?_⟩
          rw [bne_iff_ne]
          rw [← h1]
          decide
        rw [hemp] at h2
        exact (List.not_mem_nil _) h2
      · have h2 : "How’s your day going?" ∈
            PROMPTS.filter (· != ui.current_prompt) := by
          rw [List.mem_filter]
          exact ⟨by simp [PROMPTS], bne_iff_ne.mpr h1⟩
        rw [hemp] at h2
        exact (List.not_mem_nil _) h2
    have hmem : (newPromptClick ui rnd).current_prompt ∈
        PROMPTS.filter (· != ui.current_prompt) := by
      have hc : ¬ ui.refresh_count + 1 ≥ 2 := by omega
      simp only [newPromptClick, if_neg hc]
      exact getD_mod_mem _ rnd _ hne
    rw [List.mem_filter] at hmem
    exact ⟨hmem.1, bne_iff_ne.mp hmem.2⟩

/-- C5 (witness): the amended theorem applied at counter 0 with the first
fixed prompt current and random index 1. -/
theorem c5_witness :
    (newPromptClick (newPromptClick ⟨0, PROMPTS[0]⟩ 1) 3 = ⟨2, FALLBACK⟩) ∧
    ((newPromptClick ⟨0, PROMPTS[0]⟩ 1).current_prompt ∈ PROMPTS ∧
      (newPromptClick ⟨0, PROMPTS[0]⟩ 1).current_prompt ≠ PROMPTS[0]) :=
  ⟨c5_amended.1 1 3, c5_amended.2 ⟨0, PROMPTS[0]⟩ 1 rfl⟩

-- ---- C8: empty save rejected ----

/-- C8: a "save entry" action whose text strips to the empty string is
rejected with a warning: the store is unchanged (no entry is created, no
network write happens) and the UI state is untouched. -/
theorem c8_empty_save_rejected (s : Store) (ui : UIState) (user_id text : String)
    (h : pyStrip text = "") :
    saveEntryClick s ui user_id text = (s, ui, .warning) := by
  simp [saveEntryClick, h]

/-- C8 (witness): a whitespace-only text at a concrete store. -/
theorem c8_empty_save_rejected_witness :
    saveEntryClick c1Store ⟨0, PROMPTS[0]⟩ "me" "   " =
      (c1Store, ⟨0, PROMPTS[0]⟩, .warning) :=
  c8_empty_save_rejected c1Store ⟨0, PROMPTS[0]⟩ "me" "   " (by decide)

-- ---- C9: successful save resets prompt state ----

/-- C9: every successful entry save (non-blank text) resets the refresh
counter to 0 and the current prompt to the first fixed prompt. -/
theorem c9_save_resets_prompt (s : Store) (ui : UIState) (user_id text : String)
    (h : pyStrip text ≠ "") :
    (saveEntryClick s ui user_id text).2.1 = ⟨0, PROMPTS[0]⟩ ∧
    (saveEntryClick s ui user_id text).2.2 =
      .success (create_entry s user_id (pyStrip text) (some ui.current_prompt)).2 := by
  simp [saveEntryClick, h]

/-- C9 (witness): a concrete successful save. -/
theorem c9_save_resets_prompt_witness :
    (saveEntryClick c1Store ⟨1, FALLBACK⟩ "me" " hello ").2.1 = ⟨0, PROMPTS[0]⟩ ∧
    (saveEntryClick c1Store ⟨1, FALLBACK⟩ "me" " hello ").2.2 =
      .success (create_entry c1Store "me" (pyStrip " hello ") (some FALLBACK)).2 :=
  c9_save_resets_prompt c1Store ⟨1, FALLBACK⟩ "me" " hello " (by decide)

-- ---- C10: save_summary document shape ----

/-- C10: for every payload dictionary, the summary document `save_summary`
writes holds exactly the fields `summary_text`, `themes`,
`suggested_prompts`, `model`, `created_at` (the type of `summaryDocOf`),
where each of the three payload-derived fields equals the payload's value
when its key is present and the default (`""`, `[]`, `[]`) when it is
missing; the construction is total, so no missing key can make it fail. -/
theorem c10_save_summary_doc (payload : List (String × JVal)) (t : Nat) :
    (summaryDocOf payload t).model = VERTEX_MODEL ∧
    (summaryDocOf payload t).created_at = t ∧
    (∀ v, lookupKey payload "summary" = some v →
        (summaryDocOf payload t).summary_text = v) ∧
    (lookupKey payload "summary" = none →
        (summaryDocOf payload t).summary_text = .str "") ∧
    (∀ v, lookupKey payload "themes" = some v →
        (summaryDocOf payload t).themes = v) ∧
    (lookupKey payload "themes" = none →
        (summaryDocOf payload t).themes = .arr []) ∧
    (∀ v, lookupKey payload "suggested_prompts" = some v →
        (summaryDocOf payload t).suggested_prompts = v) ∧
    (lookupKey payload "suggested_prompts" = none →
        (summaryDocOf payload t).suggested_prompts = .arr []) := by
  refine ⟨rfl, rfl, ?_, ?_, ?_, ?_, ?_, ?_⟩ <;>
    (first
      | (intro v hv; simp [summaryDocOf, hv])
      | (intro hv; simp [summaryDocOf, hv]))

/-- C10 (witness): the empty payload gets all three defaults. -/
theorem c10_save_summary_doc_witness :
    (summaryDocOf [] 0).summary_text = .str "" ∧
    (summaryDocOf [] 0).themes = .arr [] ∧
    (summaryDocOf [] 0).suggested_prompts = .arr [] :=
  ⟨(c10_save_summary_doc [] 0).2.2.2.1 rfl,
   (c10_save_summary_doc [] 0).2.2.2.2.2.1 rfl,
   (c10_save_summary_doc [] 0).2.2.2.2.2.2.2 rfl⟩

-- ---- fetch_entries lemmas ----

theorem fetchLoop_none (l : List Entry) :
    fetchLoop none l = .ok (l.map entryOutOf) := by
  induction l with
  | nil => rfl
  | cons e rest ih => simp [fetchLoop, keepEntry, ih]

theorem fetchLoop_sound (tf : Option String) (l : List Entry) :
    ∀ out, fetchLoop tf l = .ok out → ∀ eo ∈ out,
      ∃ e, e ∈ l ∧ eo = entryOutOf e ∧ keepEntry tf e = .ok true := by
  induction l with
  | nil =>
    intro out h eo hmem
    simp only [fetchLoop] at h
    injection h with h2
    subst h2
    cases hmem
  | cons e0 rest ih =>
    intro out h eo hmem
    simp only [fetchLoop] at h
    cases hk : keepEntry tf e0 with
    | error er => rw [hk] at h; cases h
    | ok b =>
      rw [hk] at h
      cases b with
      | false =>
        obtain ⟨e, hel, heq, hke⟩ := ih out h eo hmem
        exact ⟨e, List.mem_cons_of_mem _ hel, heq, hke⟩
      | true =>
        cases hr : fetchLoop tf rest with
        | error er => rw [hr] at h; cases h
        | ok out2 =>
          rw [hr] at h
          injection h with h2
          subst h2
          rcases List.mem_cons.mp hmem with heq | hmem2
          · exact ⟨e0, List.mem_cons_self _ _, heq, hk⟩
          · obtain ⟨e, hel, heq, hke⟩ := ih out2 hr eo hmem2
            exact ⟨e, List.mem_cons_of_mem _ hel, heq, hke⟩

theorem fetchLoop_complete (tf : Option String) (l : List Entry) :
    ∀ out, fetchLoop tf l = .ok out → ∀ e ∈ l,
      keepEntry tf e = .ok true → entryOutOf e ∈ out := by
  induction l with
  | nil => intro out h e he; cases he
  | cons e0 rest ih =>
    intro out h e he hke
    simp only [fetchLoop] at h
    cases hk : keepEntry tf e0 with
    | error er => rw [hk] at h; cases h
    | ok b =>
      rw [hk] at h
      cases b with
      | false =>
        rcases List.mem_cons.mp he with heq | hmem2
        · subst heq; rw [hke] at hk; cases hk
        · exact ih out h e hmem2 hke
      | true =>
        cases hr : fetchLoop tf rest with
        | error er => rw [hr] at h; cases h
        | ok out2 =>
          rw [hr] at h
          injection h with h2
          subst h2
          rcases List.mem_cons.mp he with heq | hmem2
          · subst heq; exact List.mem_cons_self _ _
          · exact List.mem_cons_of_mem _ (ih out2 hr e hmem2 hke)

theorem keepEntry_noSummary (f : String) (e : Entry)
    (h : latestSummary e.summaries = none) : keepEntry (some f) e = .ok true := by
  by_cases hf : f = ""
  · simp [keepEntry, hf]
  · simp [keepEntry, hf, h]

theorem keepEntry_matches (f : String) (e : Entry) (hf : f ≠ "")
    (h : keepEntry (some f) e = .ok true) (sd : SummaryDoc)
    (hs : latestSummary e.summaries = some sd) :
    ∃ elems names, iterJ sd.themes = .ok elems ∧ themeNames elems = .ok names ∧
      names.contains (to_title f) = true := by
  simp only [keepEntry, if_neg hf, hs] at h
  split at h
  · cases h
  · rename_i elems heq
    split at h
    · cases h
    · rename_i names hn
      injection h with hb
      exact ⟨elems, names, heq, hn, hb⟩

-- ---- C1: theme filter ----

/-- C1 (counterexample): with the filter `"Stress"` active on a store whose
only entry has no summary, `fetch_entries` returns that entry — an entry
with no summary is not excluded, contradicting the claim. -/
theorem c1_counterexample :
    fetch_entries c1Store "u" (some "Stress") = .ok [entryOutOf noSummaryEntry] ∧
    latestSummary noSummaryEntry.summaries = none ∧
    noSummaryEntry ∈ lookupEntries c1Store.users "u" :=
  ⟨rfl, rfl, List.mem_singleton.mpr rfl⟩

/-- C1 (amended): when a theme filter (a nonempty string) is active,
every returned entry comes from the user's collection; every returned
entry that has a latest summary has the title-cased filter name in the
title-cased theme-name set computed from that summary's themes; and every
entry with no summary is included in (not excluded from) the result. -/
theorem c1_filter_amended (s : Store) (u f : String) (out : List EntryOut)
    (hf : f ≠ "") (h : fetch_entries s u (some f) = .ok out) :
    (∀ eo ∈ out, ∃ e, e ∈ lookupEntries s.users u ∧ eo = entryOutOf e) ∧
    (∀ eo ∈ out, ∀ sd, eo.latest_summary = some sd →
      ∃ elems names, iterJ sd.themes = .ok elems ∧ themeNames elems = .ok names ∧
        names.contains (to_title f) = true) ∧
    (∀ e ∈ lookupEntries s.users u, latestSummary e.summaries = none →
      entryOutOf e ∈ out) := by
  refine ⟨?_, ?_, ?_⟩
  · intro eo hmem
    obtain ⟨e, hel, heq, -⟩ := fetchLoop_sound _ _ out h eo hmem
    exact ⟨e, (mem_sortDescBy _ _ _).mp hel, heq⟩
  · intro eo hmem sd hsd
    obtain ⟨e, hel, heq, hke⟩ := fetchLoop_sound _ _ out h eo hmem
    have hs : latestSummary e.summaries = some sd := by rw [heq] at hsd; exact hsd
    exact keepEntry_matches f e hf hke sd hs
  · intro e hel hnone
    exact fetchLoop_complete _ _ out h e ((mem_sortDescBy _ _ _).mpr hel)
      (keepEntry_noSummary f e hnone)

/-- C1 (witness): the amended theorem at a concrete store and filter,
instantiated at the first returned entry. -/
theorem c1_filter_amended_witness :
    ∃ e, e ∈ lookupEntries exC2Store.users "u" ∧
      entryOutOf (entMk "3" 2 false [sdMk ["Stress"] 12]) = entryOutOf e :=
  (c1_filter_amended exC2Store "u" "Stress" c1WitnessOut (by decide) rfl).1
    (entryOutOf (entMk "3" 2 false [sdMk ["Stress"] 12]))
    (List.mem_cons_self _ _)

-- ---- C6: save then list round trip ----

/-- C6: for every store and non-empty text, creating an entry and then
listing that user's entries (no filter) succeeds and returns an entry
whose text is the saved input and whose shared flag is false. -/
theorem c6_save_then_list (s : Store) (u text : String) (p : Option String)
    (h : text ≠ "") :
    ∃ out, fetch_entries (create_entry s u text p).1 u none = .ok out ∧
      ∃ eo ∈ out, eo.text = text ∧ eo.is_shared = false := by
  refine ⟨_, fetchLoop_none _, ?_⟩
  have h1 : lookupEntries (create_entry s u text p).1.users u
      = lookupEntries s.users u ++
        [⟨toString s.nextId, text, p, s.clock, false, []⟩] := by
    simp [create_entry, lookupEntries_setEntries_self]
  refine ⟨entryOutOf ⟨toString s.nextId, text, p, s.clock, false, []⟩, ?_, rfl, rfl⟩
  apply List.mem_map_of_mem
  rw [mem_sortDescBy, h1]
  simp

/-- C6 (witness): a concrete save-then-list round trip. -/
theorem c6_save_then_list_witness :
    ∃ out, fetch_entries (create_entry c1Store "me" "hello" none).1 "me" none =
      .ok out ∧ ∃ eo ∈ out, eo.text = "hello" ∧ eo.is_shared = false :=
  c6_save_then_list c1Store "me" "hello" none (by decide)

-- ---- C7: export_shared ----

theorem exportLoop_map (l : List Entry) : exportLoop l = l.map exportRecordOf := by
  induction l with
  | nil => rfl
  | cons e rest ih => simp [exportLoop, ih]

/-- C7: `export_shared` wraps the user id with a `shared` array holding one
projected record per shared entry: the underlying entry list contains
exactly the entries with `is_shared = true`, is ordered by creation time
ascending, and each record carries the entry id, text, prompt, ISO
creation string, and the latest summary's text/themes (null when there is
no summary). -/
theorem c7_export_shared (s : Store) (u : String) :
    ∃ es : List Entry,
      export_shared s u = ⟨u, es.map exportRecordOf⟩ ∧
      List.Chain' (fun a b => a.created_at ≤ b.created_at) es ∧
      (∀ e ∈ es, e.is_shared = true ∧ e ∈ lookupEntries s.users u) ∧
      (∀ e ∈ lookupEntries s.users u, e.is_shared = true → e ∈ es) ∧
      (∀ e ∈ es, (exportRecordOf e).entry_id = e.id ∧
        (exportRecordOf e).text = e.text ∧
        (exportRecordOf e).prompt_used = e.prompt_used ∧
        (exportRecordOf e).created_at = some (isoformat e.created_at) ∧
        (exportRecordOf e).summary =
          (latestSummary e.summaries).map SummaryDoc.summary_text ∧
        (exportRecordOf e).themes =
          (latestSummary e.summaries).map SummaryDoc.themes) := by
  refine ⟨sortAscBy Entry.created_at ((lookupEntries s.users u).filter Entry.is_shared),
    ?_, chain_sortAscBy _ _, ?_, ?_, ?_⟩
  · simp [export_shared, exportLoop_map]
  · intro e he
    have h2 := List.mem_filter.mp ((mem_sortAscBy _ _ _).mp he)
    exact ⟨h2.2, h2.1⟩
  · intro e he hsh
    exact (mem_sortAscBy _ _ _).mpr (List.mem_filter.mpr ⟨he, hsh⟩)
  · intro e he
    exact ⟨rfl, rfl, rfl, rfl, rfl, rfl⟩

/-- C7 (witness): the export theorem at a concrete store. -/
theorem c7_export_shared_witness :
    ∃ es : List Entry,
      export_shared exC2Store "u" = ⟨"u", es.map exportRecordOf⟩ ∧
      List.Chain' (fun a b => a.created_at ≤ b.created_at) es ∧
      (∀ e ∈ es, e.is_shared = true ∧ e ∈ lookupEntries exC2Store.users "u") ∧
      (∀ e ∈ lookupEntries exC2Store.users "u", e.is_shared = true → e ∈ es) ∧
      (∀ e ∈ es, (exportRecordOf e).entry_id = e.id ∧
        (exportRecordOf e).text = e.text ∧
        (exportRecordOf e).prompt_used = e.prompt_used ∧
        (exportRecordOf e).created_at = some (isoformat e.created_at) ∧
        (exportRecordOf e).summary =
          (latestSummary e.summaries).map SummaryDoc.summary_text ∧
        (exportRecordOf e).themes =
          (latestSummary e.summaries).map SummaryDoc.themes) :=
  c7_export_shared exC2Store "u"

-- ---- theme_counts lemmas ----

theorem getCount_bumpCount (c : List (String × Nat)) (n m : String) :
    getCount (bumpCount c n) m = if m = n then getCount c m + 1 else getCount c m := by
  induction c with
  | nil =>
    by_cases h : m = n
    · subst h; simp [bumpCount, getCount]
    · have h2 : ¬ n = m := fun hh => h hh.symm
      simp [bumpCount, getCount, h, h2]
  | cons p rest ih =>
    obtain ⟨k, v⟩ := p
    by_cases hk : k = n
    · subst hk
      by_cases hm : m = k
      · subst hm; simp [bumpCount, getCount]
      · have h2 : ¬ k = m := fun hh => hm hh.symm
        simp [bumpCount, getCount, hm, h2]
    · by_cases hm : k = m
      · have hmn : ¬ m = n := fun hh => hk (hm.trans hh)
        simp [bumpCount, getCount, hk, hm, hmn]
      · simp [bumpCount, getCount, hk, hm, ih]

theorem contains_cons_str (n0 m : String) (nn : List String) :
    (n0 :: nn).contains m = ((m == n0) || nn.contains m) := rfl

theorem countThemes_wf :
    ∀ ts : List JVal, ts.all themeObjWF = true → nodupB (normNames ts) = true →
      ∀ counts, ∃ c, countThemes counts ts = .ok c ∧
        ∀ m, m ≠ "" → getCount c m =
          getCount counts m + (if (normNames ts).contains m then 1 else 0) := by
  intro ts
  induction ts with
  | nil =>
    intro _ _ counts
    exact ⟨counts, rfl, fun m _ => by simp [normNames, List.contains]⟩
  | cons t rest ih =>
    intro hwf hnd counts
    rw [List.all_cons, Bool.and_eq_true] at hwf
    cases t with
    | obj kvs =>
      cases hname : lookupKey kvs "name" with
      | none => exact absurd hwf.1 (by simp [themeObjWF, hname])
      | some v =>
        cases v with
        | str s0 =>
          have hnn : normNames (JVal.obj kvs :: rest) =
              to_title s0 :: normNames rest := by
            simp [normNames, hname]
          rw [hnn] at hnd
          rw [show nodupB (to_title s0 :: normNames rest) =
              (!(normNames rest).contains (to_title s0) && nodupB (normNames rest))
            from rfl, Bool.and_eq_true, Bool.not_eq_true'] at hnd
          set counts' := if to_title s0 = "" then counts
            else bumpCount counts (to_title s0) with hc'
          obtain ⟨c, hceq, hcp⟩ := ih hwf.2 hnd.2 counts'
          refine ⟨c, ?_, ?_⟩
          · simp only [countThemes, hname, Option.getD_some, to_title_py]
            exact hceq
          · intro m hm
            rw [hnn, contains_cons_str]
            by_cases hm0 : m = to_title s0
            · have hs0 : ¬ to_title s0 = "" := by rw [← hm0]; exact hm
              have h1 : getCount counts' m = getCount counts m + 1 := by
                rw [hc', if_neg hs0, getCount_bumpCount, if_pos hm0]
              have h2 : (normNames rest).contains m = false := by
                rw [hm0]; exact hnd.1
              rw [hcp m hm, h1, h2, hm0]
              simp
            · have h1 : getCount counts' m = getCount counts m := by
                by_cases hs0 : to_title s0 = ""
                · rw [hc', if_pos hs0]
                · rw [hc', if_neg hs0, getCount_bumpCount, if_neg hm0]
              have hbeq : (m == to_title s0) = false := by
                rw [beq_eq_false_iff_ne]; exact hm0
              rw [hcp m hm, h1, hbeq, Bool.false_or]
        | null => exact absurd hwf.1 (by simp [themeObjWF, hname])
        | bool b => exact absurd hwf.1 (by simp [themeObjWF, hname])
        | num n => exact absurd hwf.1 (by simp [themeObjWF, hname])
        | arr xs => exact absurd hwf.1 (by simp [themeObjWF, hname])
        | obj k2 => exact absurd hwf.1 (by simp [themeObjWF, hname])
    | null => exact absurd hwf.1 (by simp [themeObjWF])
    | bool b => exact absurd hwf.1 (by simp [themeObjWF])
    | num n => exact absurd hwf.1 (by simp [themeObjWF])
    | str s => exact absurd hwf.1 (by simp [themeObjWF])
    | arr xs => exact absurd hwf.1 (by simp [themeObjWF])

theorem countEntries_wf :
    ∀ es : List Entry, (∀ e ∈ es, entryThemesWF e = true) →
      ∀ counts, ∃ c, countEntries counts es = .ok c ∧
        ∀ m, m ≠ "" → getCount c m =
          getCount counts m + (es.filter (fun e => entryHasTheme e m)).length := by
  intro es
  induction es with
  | nil => intro _ counts; exact ⟨counts, rfl, fun m _ => by simp⟩
  | cons e rest ih =>
    intro hwf counts
    have hwfe := hwf e (List.mem_cons_self _ _)
    have hwfr : ∀ e2 ∈ rest, entryThemesWF e2 = true :=
      fun e2 h2 => hwf e2 (List.mem_cons_of_mem _ h2)
    cases hls : latestSummary e.summaries with
    | none =>
      obtain ⟨c, hceq, hcp⟩ := ih hwfr counts
      refine ⟨c, ?_, ?_⟩
      · simp only [countEntries, hls]; exact hceq
      · intro m hm
        have hht : entryHasTheme e m = false := by simp [entryHasTheme, hls]
        rw [hcp m hm, List.filter_cons_of_neg (by rw [hht]; exact Bool.false_ne_true)]
    | some sd =>
      cases hth : sd.themes with
      | arr ts =>
        have hwfe2 : ts.all themeObjWF = true ∧ nodupB (normNames ts) = true := by
          have h3 := hwfe
          simp only [entryThemesWF, hls, hth, Bool.and_eq_true] at h3
          exact h3
        obtain ⟨c1, h1, hp1⟩ := countThemes_wf ts hwfe2.1 hwfe2.2 counts
        obtain ⟨c2, h2, hp2⟩ := ih hwfr c1
        refine ⟨c2, ?_, ?_⟩
        · simp only [countEntries, hls, hth, iterJ, h1]
          exact h2
        · intro m hm
          have hht : entryHasTheme e m = (normNames ts).contains m := by
            simp [entryHasTheme, hls, hth]
          rw [hp2 m hm, hp1 m hm]
          by_cases hc : (normNames ts).contains m = true
          · rw [List.filter_cons_of_pos (by rw [hht]; exact hc), if_pos hc]
            simp only [List.length_cons]
            omega
          · rw [List.filter_cons_of_neg (by rw [hht]; exact hc),
              if_neg hc]
            omega
      | null => exact absurd hwfe (by simp [entryThemesWF, hls, hth])
      | bool b => exact absurd hwfe (by simp [entryThemesWF, hls, hth])
      | num n => exact absurd hwfe (by simp [entryThemesWF, hls, hth])
      | str s => exact absurd hwfe (by simp [entryThemesWF, hls, hth])
      | obj kvs => exact absurd hwfe (by simp [entryThemesWF, hls, hth])

-- ---- C2: theme_counts ----

/-- C2: over the most recent `last_n` entries, whenever each entry's latest
summary carries a themes list of theme objects with string names whose
title-cased forms are distinct within the entry (the data model's
invariant), `theme_counts` succeeds and counts, for every nonempty
title-cased name, exactly one occurrence per entry whose latest summary
mentions it — names differing only in case fall on the same title-cased
key; in particular, latest summaries with theme-name lists `["Stress"]`,
`["Stress", "Sleep"]`, `["Stress"]` yield `{"Stress": 3, "Sleep": 1}`. -/
theorem c2_theme_counts :
    (∀ (s : Store) (u : String) (n : Nat),
      (∀ e ∈ takenEntries s u n, entryThemesWF e = true) →
      ∃ counts, theme_counts s u n = .ok counts ∧
        ∀ m, m ≠ "" → getCount counts m =
          ((takenEntries s u n).filter (fun e => entryHasTheme e m)).length) ∧
    theme_counts exC2Store "u" 10 = .ok [("Stress", 3), ("Sleep", 1)] := by
  constructor
  · intro s u n hwf
    obtain ⟨c, hc, hp⟩ := countEntries_wf (takenEntries s u n) hwf []
    refine ⟨c, hc, fun m hm => ?_⟩
    have := hp m hm
    rwa [show getCount [] m = 0 from rfl, Nat.zero_add] at this
  · rfl

/-- C2 (witness): the aggregation theorem at the concrete three-entry store. -/
theorem c2_theme_counts_witness :
    ∃ counts, theme_counts exC2Store "u" 10 = .ok counts ∧
      ∀ m, m ≠ "" → getCount counts m =
        ((takenEntries exC2Store "u" 10).filter
          (fun e => entryHasTheme e m)).length :=
  c2_theme_counts.1 exC2Store "u" 10 (by decide)

-- ---- Normalization lemmas ----

theorem to_title_py_ok (v : JVal) (s : String) (h : to_title_py v = .ok s) :
    ∃ s0, s = to_title s0 := by
  cases v with
  | str s0 =>
    refine ⟨s0, ?_⟩
    simp only [to_title_py] at h
    injection h with h2
    exact h2.symm
  | null =>
    refine ⟨"", ?_⟩
    simp only [to_title_py, jFalsy] at h
    injection h with h2
    exact h2.symm
  | bool b =>
    cases b with
    | false =>
      refine ⟨"", ?_⟩
      simp only [to_title_py, jFalsy] at h
      injection h with h2
      exact h2.symm
    | true => simp [to_title_py, jFalsy] at h
  | num n =>
    by_cases hn : n = 0
    · refine ⟨"", ?_⟩
      subst hn
      simp only [to_title_py, jFalsy] at h
      injection h with h2
      exact h2.symm
    · simp [to_title_py, jFalsy, hn] at h
  | arr xs =>
    cases xs with
    | nil =>
      refine ⟨"", ?_⟩
      simp only [to_title_py, jFalsy, List.isEmpty] at h
      injection h with h2
      exact h2.symm
    | cons x rest => simp [to_title_py, jFalsy, List.isEmpty] at h
  | obj kvs =>
    cases kvs with
    | nil =>
      refine ⟨"", ?_⟩
      simp only [to_title_py, jFalsy, List.isEmpty] at h
      injection h with h2
      exact h2.symm
    | cons kv rest => simp [to_title_py, jFalsy, List.isEmpty] at h

theorem mapNormTheme_mem :
    ∀ ts ts2 : List JVal, mapNormTheme ts = .ok ts2 →
      ∀ t2 ∈ ts2, ∃ t ∈ ts, normTheme t = .ok t2 := by
  intro ts
  induction ts with
  | nil =>
    intro ts2 h t2 hmem
    simp only [mapNormTheme] at h
    injection h with h2
    subst h2
    cases hmem
  | cons t rest ih =>
    intro ts2 h t2 hmem
    simp only [mapNormTheme] at h
    split at h
    · cases h
    · rename_i t1 hn1
      split at h
      · cases h
      · rename_i rest2 hr
        injection h with h2
        subst h2
        rcases List.mem_cons.mp hmem with heq | hmem2
        · exact ⟨t, List.mem_cons_self _ _, heq ▸ hn1⟩
        · obtain ⟨t0, hmem0, hn0⟩ := ih rest2 hr t2 hmem2
          exact ⟨t0, List.mem_cons_of_mem _ hmem0, hn0⟩

theorem normTheme_name (t t2 : JVal) (h : normTheme t = .ok t2)
    (k2 : List (String × JVal)) (ht2 : t2 = .obj k2) (v : JVal)
    (hv : lookupKey k2 "name" = some v) : ∃ s0, v = .str (to_title s0) := by
  cases t with
  | obj kvs =>
    simp only [normTheme] at h
    split at h
    · rename_i hname
      injection h with h2
      rw [← h2] at ht2
      injection ht2 with h3
      subst h3
      rw [hname] at hv
      cases hv
    · rename_i v0 hname
      split at h
      · cases h
      · rename_i s htp
        injection h with h2
        rw [← h2] at ht2
        injection ht2 with h3
        subst h3
        rw [lookupKey_setKey_self] at hv
        injection hv with h4
        obtain ⟨s0, hs0⟩ := to_title_py_ok v0 s htp
        exact ⟨s0, by rw [← h4, hs0]⟩
  | null => simp only [normTheme] at h; injection h with h2; rw [← h2] at ht2; cases ht2
  | bool b => simp only [normTheme] at h; injection h with h2; rw [← h2] at ht2; cases ht2
  | num n => simp only [normTheme] at h; injection h with h2; rw [← h2] at ht2; cases ht2
  | str s => simp only [normTheme] at h; injection h with h2; rw [← h2] at ht2; cases ht2
  | arr xs => simp only [normTheme] at h; injection h with h2; rw [← h2] at ht2; cases ht2

theorem themeNameValues_no_themes (d : JVal) (h : jHasThemes d = .ok false) :
    themeNameValues d = [] := by
  cases d with
  | obj kvs =>
    simp only [jHasThemes] at h
    injection h with h2
    have h3 : lookupKey kvs "themes" = none := by
      cases hl : lookupKey kvs "themes" with
      | none => rfl
      | some v => rw [hl] at h2; cases h2
    simp [themeNameValues, h3]
  | arr xs => rfl
  | str s => rfl
  | null => cases h
  | bool b => cases h
  | num n => cases h

theorem normalizeData_names (d r : JVal) (h : normalizeData d = .ok r) :
    ∀ v ∈ themeNameValues r, ∃ s0, v = .str (to_title s0) := by
  intro v hv
  simp only [normalizeData] at h
  split at h
  · cases h
  · rename_i hht
    injection h with h2
    subst h2
    rw [themeNameValues_no_themes d hht] at hv
    cases hv
  · rename_i hht
    split at h
    · rename_i kvs
      split at h
      · rename_i ts hlk
        split at h
        · cases h
        · rename_i ts2 hmn
          injection h with h2
          subst h2
          simp only [themeNameValues, lookupKey_setKey_self] at hv
          obtain ⟨t2, hmem2, hf⟩ := List.mem_filterMap.mp hv
          cases t2 with
          | obj k2 =>
            obtain ⟨t, hmem, hn⟩ := mapNormTheme_mem ts ts2 hmn _ hmem2
            exact normTheme_name t _ hn k2 rfl v hf
          | null => cases hf
          | bool b => cases hf
          | num n => cases hf
          | str s => cases hf
          | arr xs => cases hf
      · rename_i hnotarr
        injection h with h2
        subst h2
        rw [show themeNameValues (JVal.obj kvs) =
            (match lookupKey kvs "themes" with
             | some (JVal.arr ts) => ts.filterMap (fun t => match t with
                 | .obj k2 => lookupKey k2 "name" | _ => none)
             | _ => []) from rfl] at hv
        split at hv
        · rename_i ts hlk
          exact absurd hlk (hnotarr ts)
        · cases hv
    · cases h

-- ---- C3: retry behaviour ----

/-- C3 (counterexample): with a first response that fails to decode and a
second that decodes to a summary whose theme name is `"stress level"`,
`summarize_with_gemini` does not return the parsed second response itself:
the returned value has the name title-cased to `"Stress Level"`. -/
theorem c3_counterexample :
    (summarize_with_gemini exParse exGen "t").1 ≠ .ok exData := by
  intro h
  have h1 : (summarize_with_gemini exParse exGen "t").1 = .ok exDataNormed := rfl
  rw [h1] at h
  injection h with h2
  have h3 := congrArg themeNameValues h2
  rw [show themeNameValues exDataNormed = [JVal.str "Stress Level"] from rfl,
    show themeNameValues exData = [JVal.str "stress level"] from rfl] at h3
  injection h3 with h4 h5
  injection h4 with h6
  exact absurd h6 (by decide)

/-- C3 (amended): when the first response fails to decode, exactly one
retry is made with the original prompt plus the JSON-only instruction —
the prompt trace is precisely the two prompts; if the retry decodes to
`d`, the result is `d` with theme names title-cased (an exception during
that normalization propagates instead); if the retry also fails to
decode, the call fails with the ModelOutputInvalid condition and no
further model call is made. -/
theorem c3_retry_amended (parse : String → Option JVal) (gen : String → String)
    (text : String) (d : JVal) :
    (parse (gen (GEN_TEMPLATE SYSTEM_PROMPT text)) = none →
      parse (gen (GEN_TEMPLATE SYSTEM_PROMPT text ++ RETRY_NOTE)) = some d →
      summarize_with_gemini parse gen text =
        ((normalizeData d).mapError SummFail.pyErr,
         [GEN_TEMPLATE SYSTEM_PROMPT text,
          GEN_TEMPLATE SYSTEM_PROMPT text ++ RETRY_NOTE])) ∧
    (parse (gen (GEN_TEMPLATE SYSTEM_PROMPT text)) = none →
      parse (gen (GEN_TEMPLATE SYSTEM_PROMPT text ++ RETRY_NOTE)) = none →
      summarize_with_gemini parse gen text =
        (.error .modelOutputInvalid,
         [GEN_TEMPLATE SYSTEM_PROMPT text,
          GEN_TEMPLATE SYSTEM_PROMPT text ++ RETRY_NOTE])) := by
  constructor <;> intro h1 h2 <;> simp [summarize_with_gemini, h1, h2]

/-- C3 (witness): the amended theorem at a concrete decoder and model. -/
theorem c3_retry_amended_witness :
    summarize_with_gemini exParse exGen "t" =
      ((normalizeData exData).mapError SummFail.pyErr,
       [GEN_TEMPLATE SYSTEM_PROMPT "t",
        GEN_TEMPLATE SYSTEM_PROMPT "t" ++ RETRY_NOTE]) :=
  (c3_retry_amended exParse exGen "t" exData).1 rfl rfl

-- ---- C4: theme names title-cased on success ----

/-- C4: whenever `summarize_with_gemini` succeeds, every theme name in the
returned value is a string in normalized (title-cased) form: it equals
`to_title` of some string. -/
theorem c4_titlecase (parse : String → Option JVal) (gen : String → String)
    (text : String) (r : JVal)
    (h : (summarize_with_gemini parse gen text).1 = .ok r) :
    ∀ v ∈ themeNameValues r, ∃ s0, v = .str (to_title s0) := by
  simp only [summarize_with_gemini] at h
  cases h1 : parse (gen (GEN_TEMPLATE SYSTEM_PROMPT text)) with
  | some d =>
    rw [h1] at h
    simp only [] at h
    cases hn : normalizeData d with
    | error er => rw [hn] at h; cases h
    | ok r0 =>
      rw [hn] at h
      simp only [Except.mapError] at h
      injection h with h2
      subst h2
      exact normalizeData_names d r0 hn
  | none =>
    rw [h1] at h
    cases h2 : parse (gen (GEN_TEMPLATE SYSTEM_PROMPT text ++ RETRY_NOTE)) with
    | some d =>
      rw [h2] at h
      simp only [] at h
      cases hn : normalizeData d with
      | error er => rw [hn] at h; cases h
      | ok r0 =>
        rw [hn] at h
        simp only [Except.mapError] at h
        injection h with h3
        subst h3
        exact normalizeData_names d r0 hn
    | none =>
      rw [h2] at h
      cases h

/-- C4 (witness): a concrete successful summarize call; the returned theme
name `"Stress Level"` is the title-cased form of some string. -/
theorem c4_titlecase_witness :
    ∃ s0, JVal.str "Stress Level" = .str (to_title s0) :=
  c4_titlecase exParse exGen "t" exDataNormed rfl (.str "Stress Level")
    (by rw [show themeNameValues exDataNormed = [JVal.str "Stress Level"] from rfl]
        exact List.mem_singleton.mpr rfl)
